import Mathlib

/-!
Shallow embedding of the core of the `local-model-provider` extension:
the retrying HTTP transport (`GatewayClient.fetchWithRetry`, backoff,
error classification), the SSE decoding and per-index tool-call
accumulator, the JSON repair heuristic (`GatewayProvider.tryRepairJson`),
and the context budgeter (`truncateMessagesToFit`,
`calculateSafeMaxOutputTokens`).  JavaScript strings are modelled as Lean
`String`/`List Char`; JavaScript numbers appearing in JSON payloads are
modelled as normalized decimal pairs (mantissa, exponent); `Math.random()`
is modelled as an explicit rational parameter in `[0, 1)`.
-/

/-- Normalized decimal number `m * 10 ^ e`, the model of a JavaScript
number produced by `JSON.parse`.  The normal form (mantissa not divisible
by ten unless zero, zero has exponent zero) makes structural equality
coincide with numeric equality. -/
structure JsNum where
  m : ℤ
  e : ℤ
deriving DecidableEq

/-- Strip factors of ten from the mantissa into the exponent.  The fuel is
an upper bound on the number of strippable factors. -/
def stripZeros : ℕ → ℤ → ℤ → JsNum
  | 0, m, e => ⟨m, e⟩
  | fuel + 1, m, e =>
    if m % 10 = 0 ∧ m ≠ 0 then stripZeros fuel (m / 10) (e + 1) else ⟨m, e⟩

/-- Normalize a decimal pair. -/
def normNum (m : ℤ) (e : ℤ) : JsNum :=
  if m = 0 then ⟨0, 0⟩ else stripZeros m.natAbs m e

/-- The slot index a fragment without an explicit index receives:
the JavaScript number of the accumulator's counter. -/
def natIdx (n : ℕ) : JsNum := normNum n 0

/-- JSON values as produced by `JSON.parse`. -/
inductive Json where
  | null : Json
  | bool : Bool → Json
  | num : JsNum → Json
  | str : String → Json
  | arr : List Json → Json
  | obj : List (String × Json) → Json

/-- Field lookup on an object; like JavaScript's `JSON.parse`, a duplicate
key keeps the last occurrence. -/
def getFieldAux : List (String × Json) → String → Option Json
  | [], _ => none
  | (k', v) :: rest, k =>
    match getFieldAux rest k with
    | some r => some r
    | none => if k' = k then some v else none

/-- `j[k]` for an object `j`, `undefined` (`none`) otherwise. -/
def Json.getField : Json → String → Option Json
  | Json.obj fields, k => getFieldAux fields k
  | _, _ => none

/-- Extract a string, as the TypeScript interfaces type the field. -/
def Json.asString : Json → Option String
  | Json.str s => some s
  | _ => none

/-- Extract a number. -/
def Json.asNum : Json → Option JsNum
  | Json.num n => some n
  | _ => none

/-- Extract an array (the `Array.isArray` test). -/
def Json.asArr : Json → Option (List Json)
  | Json.arr l => some l
  | _ => none

/-- JavaScript truthiness of a JSON value. -/
def Json.truthy : Json → Bool
  | Json.null => false
  | Json.bool b => b
  | Json.num n => n.m ≠ 0
  | Json.str s => s ≠ ""
  | Json.arr _ => true
  | Json.obj _ => true

/-- JSON whitespace (`JSON.parse` accepts exactly these four). -/
def isJsonWs (c : Char) : Bool :=
  c = ' ' || c = '\t' || c = '\n' || c = '\r'

/-- Drop leading JSON whitespace. -/
def skipWs (l : List Char) : List Char := l.dropWhile isJsonWs

/-- Hexadecimal digit value. -/
def hexVal (c : Char) : Option ℕ :=
  if '0' ≤ c ∧ c ≤ '9' then some (c.toNat - 48)
  else if 'a' ≤ c ∧ c ≤ 'f' then some (c.toNat - 87)
  else if 'A' ≤ c ∧ c ≤ 'F' then some (c.toNat - 55)
  else none

/-- Body of a JSON string literal, after the opening quote; handles the
escapes `JSON.parse` accepts and rejects raw control characters.  A
`\uXXXX` escape naming an unpaired surrogate goes through `Char.ofNat`'s
fallback; no input of this repository contains one. -/
def parseJStringAux : ℕ → List Char → List Char → Option (String × List Char)
  | 0, _, _ => none
  | fuel + 1, acc, l =>
    match l with
    | [] => none
    | '"' :: rest => some (String.mk acc.reverse, rest)
    | '\\' :: esc =>
      match esc with
      | [] => none
      | c :: rest =>
        if c = '"' then parseJStringAux fuel ('"' :: acc) rest
        else if c = '\\' then parseJStringAux fuel ('\\' :: acc) rest
        else if c = '/' then parseJStringAux fuel ('/' :: acc) rest
        else if c = 'b' then parseJStringAux fuel ('\x08' :: acc) rest
        else if c = 'f' then parseJStringAux fuel ('\x0c' :: acc) rest
        else if c = 'n' then parseJStringAux fuel ('\n' :: acc) rest
        else if c = 'r' then parseJStringAux fuel ('\r' :: acc) rest
        else if c = 't' then parseJStringAux fuel ('\t' :: acc) rest
        else if c = 'u' then
          match rest with
          | h1 :: h2 :: h3 :: h4 :: rest2 =>
            match hexVal h1, hexVal h2, hexVal h3, hexVal h4 with
            | some a, some b, some c2, some d =>
              parseJStringAux fuel
                (Char.ofNat (((a * 16 + b) * 16 + c2) * 16 + d) :: acc) rest2
            | _, _, _, _ => none
          | _ => none
        else none
    | c :: rest =>
      if c.toNat < 32 then none else parseJStringAux fuel (c :: acc) rest

/-- Digits to a natural number. -/
def natOfDigits (l : List Char) : ℕ :=
  l.foldl (fun a c => a * 10 + (c.toNat - 48)) 0

/-- Assemble a parsed number into a normalized decimal. -/
def mkJsonNum (neg : Bool) (intD fracD : List Char) (exp : ℤ) : Json :=
  let m0 : ℤ := (natOfDigits (intD ++ fracD) : ℤ)
  let m : ℤ := if neg then -m0 else m0
  Json.num (normNum m (exp - fracD.length))

/-- Exponent suffix of a number literal. -/
def parseExpTail (neg : Bool) (intD fracD : List Char) (r1 : List Char) :
    Option (Json × List Char) :=
  let signAndRest : ℤ × List Char :=
    match r1 with
    | '+' :: t => (1, t)
    | '-' :: t => (-1, t)
    | _ => (1, r1)
  let ed := signAndRest.2.takeWhile Char.isDigit
  if ed = [] then none
  else some (mkJsonNum neg intD fracD (signAndRest.1 * (natOfDigits ed : ℤ)),
    signAndRest.2.dropWhile Char.isDigit)

/-- Optional exponent part of a number literal. -/
def parseNumExp (neg : Bool) (intD fracD : List Char) (r : List Char) :
    Option (Json × List Char) :=
  match r with
  | 'e' :: r1 => parseExpTail neg intD fracD r1
  | 'E' :: r1 => parseExpTail neg intD fracD r1
  | _ => some (mkJsonNum neg intD fracD 0, r)

/-- A JSON number literal, with `JSON.parse`'s strict grammar
(`-?(0|[1-9][0-9]*)(\.[0-9]+)?([eE][+-]?[0-9]+)?`). -/
def parseNumber (l : List Char) : Option (Json × List Char) :=
  let negAndRest : Bool × List Char :=
    match l with
    | '-' :: r => (true, r)
    | _ => (false, l)
  let neg := negAndRest.1
  let l1 := negAndRest.2
  match l1 with
  | [] => none
  | c :: tl =>
    if ¬ c.isDigit then none
    else
      let ipPair : List Char × List Char :=
        if c = '0' then (['0'], tl)
        else (l1.takeWhile Char.isDigit, l1.dropWhile Char.isDigit)
      match ipPair.2 with
      | '.' :: r2 =>
        let fd := r2.takeWhile Char.isDigit
        if fd = [] then none
        else parseNumExp neg ipPair.1 fd (r2.dropWhile Char.isDigit)
      | r1 => parseNumExp neg ipPair.1 [] r1

/-- Comma-separated array elements, parameterized by the value parser. -/
def parseElems (pv : List Char → Option (Json × List Char)) :
    ℕ → List Char → Option (List Json × List Char)
  | 0, _ => none
  | fuel + 1, l =>
    match pv l with
    | none => none
    | some (j, r) =>
      match skipWs r with
      | ',' :: r2 =>
        match parseElems pv fuel (skipWs r2) with
        | some (js, r3) => some (j :: js, r3)
        | none => none
      | ']' :: r2 => some ([j], r2)
      | _ => none

/-- Comma-separated object members, parameterized by the value parser. -/
def parseMembers (pv : List Char → Option (Json × List Char)) :
    ℕ → List Char → Option (List (String × Json) × List Char)
  | 0, _ => none
  | fuel + 1, l =>
    match l with
    | '"' :: r0 =>
      match parseJStringAux (r0.length + 1) [] r0 with
      | none => none
      | some (key, r1) =>
        match skipWs r1 with
        | ':' :: r2 =>
          match pv (skipWs r2) with
          | none => none
          | some (j, r3) =>
            match skipWs r3 with
            | ',' :: r4 =>
              match parseMembers pv fuel (skipWs r4) with
              | some (ms, r5) => some ((key, j) :: ms, r5)
              | none => none
            | '\x7d' :: r4 => some ([(key, j)], r4)
            | _ => none
        | _ => none
    | _ => none

/-- A JSON value.  The fuel bounds the nesting depth; one character is
consumed per level, so `length + 1` always suffices. -/
def parseValue : ℕ → List Char → Option (Json × List Char)
  | 0, _ => none
  | fuel + 1, l =>
    match l with
    | [] => none
    | c :: rest =>
      if c = '"' then
        match parseJStringAux (rest.length + 1) [] rest with
        | some (s, r) => some (Json.str s, r)
        | none => none
      else if c = '\x7b' then
        match skipWs rest with
        | '\x7d' :: r => some (Json.obj [], r)
        | r' =>
          match parseMembers (parseValue fuel) (fuel + 1) r' with
          | some (ms, r) => some (Json.obj ms, r)
          | none => none
      else if c = '[' then
        match skipWs rest with
        | ']' :: r => some (Json.arr [], r)
        | r' =>
          match parseElems (parseValue fuel) (fuel + 1) r' with
          | some (js, r) => some (Json.arr js, r)
          | none => none
      else if c = 't' then
        match rest with
        | 'r' :: 'u' :: 'e' :: r => some (Json.bool true, r)
        | _ => none
      else if c = 'f' then
        match rest with
        | 'a' :: 'l' :: 's' :: 'e' :: r => some (Json.bool false, r)
        | _ => none
      else if c = 'n' then
        match rest with
        | 'u' :: 'l' :: 'l' :: r => some (Json.null, r)
        | _ => none
      else parseNumber (c :: rest)

/-- The model of `JSON.parse`: `none` when the call would throw. -/
def parseJson (s : String) : Option Json :=
  match parseValue (s.data.length + 1) (skipWs s.data) with
  | some (j, r) => if skipWs r = [] then some j else none
  | none => none

/-- Whitespace for JavaScript's `String.prototype.trim` and the `\s`
regex class (the ASCII members; the repository's inputs are ASCII). -/
def isJsWs (c : Char) : Bool :=
  c = ' ' || c = '\t' || c = '\n' || c = '\r' || c = '\x0b' || c = '\x0c'

/-- `str.trim()`. -/
def jsTrim (s : String) : String :=
  String.mk (((s.data.dropWhile isJsWs).reverse.dropWhile isJsWs).reverse)

/-- `GatewayProvider.countChar`: occurrences of a character in a string
(the source escapes the character and counts regex matches). -/
def countChar (str : String) (c : Char) : ℕ := str.data.count c

/-- `GatewayProvider.balanceBrackets`: append the deficit of closing
brackets, then of closing braces, both counted on the input string. -/
def balanceBrackets (str : String) : String :=
  let missingBrackets := countChar str '[' - countChar str ']'
  let missingBraces := countChar str '\x7b' - countChar str '\x7d'
  str ++ String.mk (List.replicate missingBrackets ']')
      ++ String.mk (List.replicate missingBraces '\x7d')

/-- `repaired.replaceAll(/,\s*([}\]])/g, '$1')`: drop a comma (and the
whitespace after it) that immediately precedes a closing brace or
bracket, scanning left to right.  The fuel is the input length. -/
def stripTrailingCommasL : ℕ → List Char → List Char
  | 0, l => l
  | fuel + 1, l =>
    match l with
    | [] => []
    | ',' :: rest =>
      match rest.dropWhile isJsWs with
      | c :: tail =>
        if c = '\x7d' ∨ c = ']' then c :: stripTrailingCommasL fuel tail
        else ',' :: stripTrailingCommasL fuel rest
      | [] => ',' :: stripTrailingCommasL fuel rest
    | c :: rest => c :: stripTrailingCommasL fuel rest

/-- The repaired string `GatewayProvider.tryRepairJson` builds when the
direct parse fails: trim, balance brackets, strip trailing commas, and,
when the quote count is odd, close the string and balance again. -/
def repairedString (jsonStr : String) : String :=
  let r1 := jsTrim jsonStr
  let r2 := balanceBrackets r1
  let r3 := String.mk (stripTrailingCommasL r2.data.length r2.data)
  if countChar r3 '"' % 2 ≠ 0 then balanceBrackets (r3 ++ "\"") else r3

/-- `GatewayProvider.tryRepairJson`; `none` models the `null` return,
`some (Json.obj [])` the structured empty object for blank input. -/
def tryRepairJson (jsonStr : String) : Option Json :=
  if jsTrim jsonStr = "" then some (Json.obj [])
  else
    match parseJson jsonStr with
    | some j => some j
    | none => parseJson (repairedString jsonStr)

/-- `StreamingToolCall`: a tool call being accumulated during streaming. -/
structure StreamingToolCall where
  id : String
  name : String
  arguments : String
deriving DecidableEq

/-- The `function` object inside a streamed tool-call fragment. -/
structure FunctionFragment where
  name : Option String
  arguments : Option String
deriving DecidableEq

/-- One element of `delta.tool_calls` (TypeScript shape
`index?: number; id?: string; function?: ...`). -/
structure ToolCallFragment where
  index : Option JsNum
  id : Option String
  function : Option FunctionFragment
deriving DecidableEq

/-- `tc.function?.name`. -/
def ToolCallFragment.fnName (tc : ToolCallFragment) : Option String :=
  tc.function.bind FunctionFragment.name

/-- `tc.function?.arguments`. -/
def ToolCallFragment.fnArgs (tc : ToolCallFragment) : Option String :=
  tc.function.bind FunctionFragment.arguments

/-- `ToolCallState`: per-response accumulator state.  The insertion-ordered
map and set are association lists; the request id (a timestamp plus a
random suffix in the source) is a parameter of `createToolCallState`. -/
structure ToolCallState where
  toolCallsByIndex : List (JsNum × StreamingToolCall)
  finalizedIndices : List JsNum
  requestId : String
  toolCallCounter : ℕ
deriving DecidableEq

/-- `GatewayClient.createToolCallState`. -/
def createToolCallState (requestId : String) : ToolCallState :=
  ⟨[], [], requestId, 0⟩

/-- `Map.get`. -/
def mapGet (l : List (JsNum × StreamingToolCall)) (k : JsNum) :
    Option StreamingToolCall :=
  match l with
  | [] => none
  | (k', v) :: rest => if k' = k then some v else mapGet rest k

/-- `Map.set`: overwrite in place preserving insertion order, else append. -/
def mapSet (l : List (JsNum × StreamingToolCall)) (k : JsNum)
    (v : StreamingToolCall) : List (JsNum × StreamingToolCall) :=
  match l with
  | [] => [(k, v)]
  | (k', v') :: rest =>
    if k' = k then (k, v) :: rest else (k', v') :: mapSet rest k v

/-- `Set.add`. -/
def setAdd (l : List JsNum) (k : JsNum) : List JsNum :=
  if k ∈ l then l else l ++ [k]

/-- JavaScript truthiness of an optional string field (`undefined` and the
empty string are falsy). -/
def optTruthy (o : Option String) : Bool := (o.getD "") ≠ ""

/-- `GatewayClient.processToolCallDelta`: resolve the slot index (the
counter is post-incremented only when the fragment omits one), then update
the existing entry — overwrite id/name when the fragment carries a truthy
one, append argument text — or create a fresh entry. -/
def processToolCallDelta (tc : ToolCallFragment) (state : ToolCallState) :
    ToolCallState :=
  let idxCtr : JsNum × ℕ :=
    match tc.index with
    | some q => (q, state.toolCallCounter)
    | none => (natIdx state.toolCallCounter, state.toolCallCounter + 1)
  let index := idxCtr.1
  let st := { state with toolCallCounter := idxCtr.2 }
  match mapGet st.toolCallsByIndex index with
  | some existing =>
    let e1 := if optTruthy tc.id then { existing with id := tc.id.getD "" }
              else existing
    let e2 := if optTruthy tc.fnName then { e1 with name := tc.fnName.getD "" }
              else e1
    let e3 := if optTruthy tc.fnArgs then
                { e2 with arguments := e2.arguments ++ tc.fnArgs.getD "" }
              else e2
    { st with toolCallsByIndex := mapSet st.toolCallsByIndex index e3 }
  | none =>
    let fresh : StreamingToolCall :=
      { id := tc.id.getD "", name := tc.fnName.getD "",
        arguments := tc.fnArgs.getD "" }
    { st with toolCallsByIndex := mapSet st.toolCallsByIndex index fresh }

/-- `GatewayClient.processLegacyFunctionCall`: the legacy single
`function_call` shape, implicitly slot 0. -/
def processLegacyFunctionCall (functionCall : FunctionFragment)
    (parsedId : String) (state : ToolCallState) : ToolCallState :=
  let index := natIdx 0
  match mapGet state.toolCallsByIndex index with
  | some existing =>
    let e1 := if optTruthy functionCall.name then
                { existing with name := functionCall.name.getD "" }
              else existing
    let e2 := if optTruthy functionCall.arguments then
                { e1 with arguments := e1.arguments ++ functionCall.arguments.getD "" }
              else e1
    { state with toolCallsByIndex := mapSet state.toolCallsByIndex index e2 }
  | none =>
    let fresh : StreamingToolCall :=
      { id := parsedId, name := functionCall.name.getD "",
        arguments := functionCall.arguments.getD "" }
    { state with toolCallsByIndex := mapSet state.toolCallsByIndex index fresh }

/-- JavaScript stringification of a slot index, used when synthesizing a
call identifier; faithful for the integer-valued indices that occur. -/
def jsNumToString (q : JsNum) : String :=
  if 0 ≤ q.e then toString (q.m * 10 ^ q.e.toNat)
  else toString q.m ++ "e" ++ toString q.e

/-- Walk of `GatewayClient.finalizeToolCalls` over the map entries:
finalized output list, grown finalized set, updated map (ids defaulted in
place). -/
def finalizeToolCallsAux (requestId : String) :
    List (JsNum × StreamingToolCall) → List JsNum →
    List StreamingToolCall × List JsNum × List (JsNum × StreamingToolCall)
  | [], fin => ([], fin, [])
  | (idx, tc) :: rest, fin =>
    if idx ∈ fin then
      let r := finalizeToolCallsAux requestId rest fin
      (r.1, r.2.1, (idx, tc) :: r.2.2)
    else
      let tc' := if tc.id = "" then
                   { tc with id := "call_" ++ requestId ++ "_" ++ jsNumToString idx }
                 else tc
      let r := finalizeToolCallsAux requestId rest (setAdd fin idx)
      (tc' :: r.1, r.2.1, (idx, tc') :: r.2.2)

/-- `GatewayClient.finalizeToolCalls`: finalize every pending slot once,
defaulting missing identifiers deterministically. -/
def finalizeToolCalls (state : ToolCallState) :
    List StreamingToolCall × ToolCallState :=
  let r := finalizeToolCallsAux state.requestId state.toolCallsByIndex
    state.finalizedIndices
  (r.1, { state with finalizedIndices := r.2.1, toolCallsByIndex := r.2.2 })

/-- Walk of `GatewayClient.getRemainingToolCalls`: drain pending entries
that carry a name or arguments. -/
def getRemainingToolCallsAux (requestId : String) :
    List (JsNum × StreamingToolCall) → List JsNum →
    List StreamingToolCall × List JsNum × List (JsNum × StreamingToolCall)
  | [], fin => ([], fin, [])
  | (idx, tc) :: rest, fin =>
    if idx ∉ fin ∧ (tc.name ≠ "" ∨ tc.arguments ≠ "") then
      let tc' := if tc.id = "" then
                   { tc with id := "call_" ++ requestId ++ "_" ++ jsNumToString idx }
                 else tc
      let r := getRemainingToolCallsAux requestId rest (setAdd fin idx)
      (tc' :: r.1, r.2.1, (idx, tc') :: r.2.2)
    else
      let r := getRemainingToolCallsAux requestId rest fin
      (r.1, r.2.1, (idx, tc) :: r.2.2)

/-- `GatewayClient.getRemainingToolCalls`. -/
def getRemainingToolCalls (state : ToolCallState) :
    List StreamingToolCall × ToolCallState :=
  let r := getRemainingToolCallsAux state.requestId state.toolCallsByIndex
    state.finalizedIndices
  (r.1, { state with finalizedIndices := r.2.1, toolCallsByIndex := r.2.2 })

/-- The `choices[0].delta` shape of `ParsedChunk`, with fields read through
the interface's types. -/
structure DeltaShape where
  content : Option String
  tool_calls : Option (List ToolCallFragment)
  function_call : Option FunctionFragment
deriving DecidableEq

/-- The `choices[0].message` shape of `ParsedChunk`. -/
structure MessageShape where
  content : Option String
  text : Option String
  tool_calls : Option (List ToolCallFragment)
  function_call : Option FunctionFragment
deriving DecidableEq

/-- `ParsedChunk`: the normalized shape `parseSSEData` extracts. -/
structure ParsedChunk where
  delta : Option DeltaShape
  message : Option MessageShape
  finishReason : Option String
  id : Option String
deriving DecidableEq

/-- Extract a `function` object's fields. -/
def extractFunctionFragment (j : Json) : FunctionFragment :=
  { name := (j.getField "name").bind Json.asString,
    arguments := (j.getField "arguments").bind Json.asString }

/-- Extract one `tool_calls` element. -/
def extractFragment (j : Json) : ToolCallFragment :=
  { index := (j.getField "index").bind Json.asNum,
    id := (j.getField "id").bind Json.asString,
    function :=
      match j.getField "function" with
      | some f => if f.truthy then some (extractFunctionFragment f) else none
      | none => none }

/-- Extract the `delta` shape.  `tool_calls` is `some` exactly when the
field holds an array (the `Array.isArray` guard of `processDeltaFormat`
folded into extraction). -/
def extractDelta (j : Json) : DeltaShape :=
  { content := (j.getField "content").bind Json.asString,
    tool_calls := ((j.getField "tool_calls").bind Json.asArr).map
      (fun l => l.map extractFragment),
    function_call :=
      match j.getField "function_call" with
      | some f => if f.truthy then some (extractFunctionFragment f) else none
      | none => none }

/-- Extract the `message` shape. -/
def extractMessage (j : Json) : MessageShape :=
  { content := (j.getField "content").bind Json.asString,
    text := (j.getField "text").bind Json.asString,
    tool_calls := ((j.getField "tool_calls").bind Json.asArr).map
      (fun l => l.map extractFragment),
    function_call :=
      match j.getField "function_call" with
      | some f => if f.truthy then some (extractFunctionFragment f) else none
      | none => none }

/-- `GatewayClient.parseSSEData`: `none` models the `null` returned when
`JSON.parse` throws; otherwise the defensive extraction of
`choices[0].delta` / `choices[0].message` / `finish_reason` / `id`
(`delta`/`message` recorded when present and truthy, as their only
consumer `processSSELine` tests them for truthiness). -/
def parseSSEData (data : String) : Option ParsedChunk :=
  match parseJson data with
  | none => none
  | some j =>
    let c0 : Option Json := ((j.getField "choices").bind Json.asArr).bind List.head?
    some
      { delta :=
          match c0.bind (Json.getField · "delta") with
          | some d => if d.truthy then some (extractDelta d) else none
          | none => none
        message :=
          match c0.bind (Json.getField · "message") with
          | some m => if m.truthy then some (extractMessage m) else none
          | none => none
        finishReason := (c0.bind (Json.getField · "finish_reason")).bind Json.asString
        id := (j.getField "id").bind Json.asString }

/-- `GatewayClient.processDeltaFormat`: fold the streamed fragments into
the accumulator, then the legacy shape, then finalize on a tool-call
finish reason. -/
def processDeltaFormat (parsed : ParsedChunk) (delta : DeltaShape)
    (state : ToolCallState) :
    String × List StreamingToolCall × ToolCallState :=
  let st1 :=
    match delta.tool_calls with
    | some tcs => tcs.foldl (fun s tc => processToolCallDelta tc s) state
    | none => state
  let st2 :=
    match delta.function_call with
    | some fc => processLegacyFunctionCall fc (parsed.id.getD "") st1
    | none => st1
  if parsed.finishReason = some "tool_calls" ∨
      parsed.finishReason = some "function_call" then
    let r := finalizeToolCalls st2
    (delta.content.getD "", r.1, r.2)
  else
    (delta.content.getD "", [], st2)

/-- One step of `processMessageFormat`'s loop over a complete
`tool_calls` array: the slot index defaults to the array position, and an
unfinalized slot is finalized immediately. -/
def messageToolCallStep (requestId : String)
    (acc : List StreamingToolCall × List JsNum) (p : ℕ × ToolCallFragment) :
    List StreamingToolCall × List JsNum :=
  let tc := p.2
  let index := tc.index.getD (natIdx p.1)
  if index ∈ acc.2 then acc
  else
    let call : StreamingToolCall :=
      { id := if optTruthy tc.id then tc.id.getD ""
              else "call_" ++ requestId ++ "_" ++ jsNumToString index,
        name := tc.fnName.getD "",
        arguments := tc.fnArgs.getD "" }
    (acc.1 ++ [call], setAdd acc.2 index)

/-- `GatewayClient.processMessageFormat`: the full-message shape finalizes
its calls immediately; content falls back from `content` to `text`. -/
def processMessageFormat (parsed : ParsedChunk) (message : MessageShape)
    (state : ToolCallState) :
    String × List StreamingToolCall × ToolCallState :=
  let afterTc : List StreamingToolCall × List JsNum :=
    match message.tool_calls with
    | some tcs => tcs.enum.foldl (messageToolCallStep state.requestId)
        ([], state.finalizedIndices)
    | none => ([], state.finalizedIndices)
  let afterFc : List StreamingToolCall × List JsNum :=
    match message.function_call with
    | some fc =>
      if natIdx 0 ∈ afterTc.2 then afterTc
      else
        let call : StreamingToolCall :=
          { id := if optTruthy parsed.id then parsed.id.getD ""
                  else "call_" ++ state.requestId ++ "_0",
            name := fc.name.getD "",
            arguments := fc.arguments.getD "" }
        (afterTc.1 ++ [call], setAdd afterTc.2 (natIdx 0))
    | none => afterTc
  let content :=
    if message.content.getD "" ≠ "" then message.content.getD ""
    else message.text.getD ""
  (content, afterFc.1, { state with finalizedIndices := afterFc.2 })

/-- One yielded chunk of the stream generator. -/
structure StreamRecord where
  content : String
  tool_calls : List StreamingToolCall
  finished_tool_calls : List StreamingToolCall
deriving DecidableEq

/-- `GatewayClient.processSSELine`: blank lines, the `[DONE]` sentinel,
non-`data: ` lines and undecodable payloads yield nothing; otherwise the
chunk is dispatched on its shape. -/
def processSSELine (line : String) (state : ToolCallState) :
    Option StreamRecord × ToolCallState :=
  let trimmed := jsTrim line
  if trimmed = "" ∨ trimmed = "data: [DONE]" then (none, state)
  else if ¬ ("data: ".data.isPrefixOf trimmed.data) then (none, state)
  else
    match parseSSEData (String.mk (trimmed.data.drop 6)) with
    | none => (none, state)
    | some parsed =>
      match parsed.delta with
      | some delta =>
        let r := processDeltaFormat parsed delta state
        (some { content := r.1, tool_calls := [], finished_tool_calls := r.2.1 },
          r.2.2)
      | none =>
        match parsed.message with
        | some msg =>
          let r := processMessageFormat parsed msg state
          (some { content := r.1, tool_calls := [], finished_tool_calls := r.2.1 },
            r.2.2)
        | none => (none, state)

/-- Process the complete lines of one chunk in order, threading state and
collecting the yielded records. -/
def processLines : List String → ToolCallState → List StreamRecord × ToolCallState
  | [], st => ([], st)
  | l :: rest, st =>
    let r := processSSELine l st
    let rr := processLines rest r.2
    (match r.1 with
     | some r0 => r0 :: rr.1
     | none => rr.1, rr.2)

/-- `buffer.split('\n')`. -/
def splitOnNl : List Char → List (List Char)
  | [] => [[]]
  | '\n' :: rest => [] :: splitOnNl rest
  | c :: rest =>
    match splitOnNl rest with
    | [] => [[c]]
    | h :: t => (c :: h) :: t

/-- Countdown to the iteration at which the cancellation check observes
the caller's signal (`none`: never cancelled). -/
def decBudget : Option ℕ → Option ℕ
  | none => none
  | some k => some (k - 1)

/-- One loop iteration over a received chunk: append it to the carry
buffer, split on newlines, process the complete lines, carry the trailing
partial line — yielding the records, the new state and the new buffer. -/
def streamStep (st : ToolCallState) (buf chunk : String) :
    List StreamRecord × ToolCallState × String :=
  let parts := splitOnNl (buf.data ++ chunk.data)
  let lines := parts.dropLast.map String.mk
  let buf' := String.mk ((parts.getLast?).getD [])
  let r := processLines lines st
  (r.1, r.2, buf')

/-- The byte-read loop of `GatewayClient.streamChatCompletion`: at the top
of each iteration the cancellation token is checked (modelled by the
budget hitting zero); otherwise the next chunk is consumed by
`streamStep`. -/
def runStream (budget : Option ℕ) (st : ToolCallState) (buf : String)
    (chunks : List String) : List StreamRecord × ToolCallState :=
  if budget = some 0 then ([], st)
  else
    match chunks with
    | [] => ([], st)
    | chunk :: rest =>
      let s := streamStep st buf chunk
      let more := runStream (decBudget budget) s.2.1 s.2.2 rest
      (s.1 ++ more.1, more.2)

/-- The record sequence `GatewayClient.streamChatCompletion` yields for a
given sequence of body chunks: the loop's records, then — after `done` or
the cancellation break — the forced drain of remaining tool calls as one
final record when it is non-empty. -/
def streamChatCompletionRecords (requestId : String) (cancelAt : Option ℕ)
    (chunks : List String) : List StreamRecord :=
  let r := runStream cancelAt (createToolCallState requestId) "" chunks
  let remaining := (getRemainingToolCalls r.2).1
  r.1 ++ (if remaining = [] then []
          else [{ content := "", tool_calls := [], finished_tool_calls := remaining }])

/-- `RetryConfig` of the transport. -/
structure RetryConfig where
  maxRetries : ℕ
  baseDelayMs : ℚ
  maxDelayMs : ℚ
  retryableStatusCodes : List ℕ

/-- `DEFAULT_RETRY_CONFIG`. -/
def DEFAULT_RETRY_CONFIG : RetryConfig :=
  { maxRetries := 3, baseDelayMs := 1000, maxDelayMs := 10000,
    retryableStatusCodes := [429, 500, 502, 503, 504] }

/-- `GatewayClient.calculateBackoffDelay`: exponential delay plus 30 %
jitter, capped at the maximum delay.  `Math.random()` is the parameter
`rand` in `[0, 1)`. -/
def calculateBackoffDelay (rc : RetryConfig) (attempt : ℕ) (rand : ℚ) : ℚ :=
  let exponentialDelay := rc.baseDelayMs * 2 ^ attempt
  let jitter := rand * (3 / 10) * exponentialDelay
  min (exponentialDelay + jitter) rc.maxDelayMs

/-- Substring test. -/
def listInfix (p : List Char) : List Char → Bool
  | [] => p.isPrefixOf []
  | c :: rest => p.isPrefixOf (c :: rest) || listInfix p rest

/-- `s.includes(pat)`. -/
def strIncludes (s pat : String) : Bool := listInfix pat.data s.data

/-- The transient-message test of `GatewayClient.isRetryableError` on a
lower-cased error message. -/
def isRetryableErrorMsg (m : String) : Bool :=
  let low := String.mk (m.data.map Char.toLower)
  strIncludes low "timeout" || strIncludes low "econnreset" ||
  strIncludes low "econnrefused" || strIncludes low "network" ||
  strIncludes low "abort"

/-- `GatewayClient.isRetryableError`: a truthy status in the retryable set
is retryable; otherwise an `Error` whose message names a transient
condition is. -/
def isRetryableError (rc : RetryConfig) (errMsg : Option String)
    (statusCode : Option ℕ) : Bool :=
  (match statusCode with
   | some s => decide (s ≠ 0) && rc.retryableStatusCodes.contains s
   | none => false) ||
  (match errMsg with
   | some m => isRetryableErrorMsg m
   | none => false)

/-- `GatewayError` (message, HTTP status, retryable flag, cause). -/
structure GatewayErr where
  message : String
  statusCode : Option ℕ
  isRetryable : Bool
  originalError : Option String
deriving DecidableEq

/-- An HTTP response as the transport observes it. -/
structure HttpResponse where
  ok : Bool
  status : ℕ
deriving DecidableEq

/-- The outcome of one fetch attempt: a response, or a thrown error with
its message. -/
inductive AttemptOutcome where
  | resp : HttpResponse → AttemptOutcome
  | thrown : String → AttemptOutcome

/-- The loop of `GatewayClient.fetchWithRetry`; `attempt` is the loop
index, the fuel counts the remaining iterations (initially
`maxRetries + 1`), `lastError` the last thrown message.  A retryable
failed response on the final attempt is returned, not thrown; every
thrown `GatewayError` carries `isRetryable := false`. -/
def fetchWithRetryGo (rc : RetryConfig) (operation : String)
    (attempts : ℕ → AttemptOutcome) :
    ℕ → ℕ → Option String → Except GatewayErr HttpResponse
  | _, 0, lastError =>
    Except.error
      { message := operation ++ " failed after " ++
          toString (rc.maxRetries + 1) ++ " attempts",
        statusCode := none, isRetryable := false, originalError := lastError }
  | attempt, fuel + 1, lastError =>
    match attempts attempt with
    | AttemptOutcome.resp r =>
      if !r.ok && isRetryableError rc none (some r.status) then
        if attempt < rc.maxRetries then
          fetchWithRetryGo rc operation attempts (attempt + 1) fuel lastError
        else Except.ok r
      else Except.ok r
    | AttemptOutcome.thrown m =>
      if isRetryableError rc (some m) none && attempt < rc.maxRetries then
        fetchWithRetryGo rc operation attempts (attempt + 1) fuel (some m)
      else
        Except.error
          { message := operation ++ " failed after " ++ toString (attempt + 1) ++
              " attempts: " ++ m,
            statusCode := none, isRetryable := false, originalError := some m }

/-- `GatewayClient.fetchWithRetry`. -/
def fetchWithRetry (rc : RetryConfig) (operation : String)
    (attempts : ℕ → AttemptOutcome) : Except GatewayErr HttpResponse :=
  fetchWithRetryGo rc operation attempts 0 (rc.maxRetries + 1) none

/-- `GatewayClient.fetchModels`, error flow: a `GatewayError` from the
transport is rethrown; a non-ok response raises a `GatewayError` whose
retryable flag is the status's retryability. -/
def fetchModels (rc : RetryConfig) (attempts : ℕ → AttemptOutcome) :
    Except GatewayErr HttpResponse :=
  match fetchWithRetry rc "Fetch models" attempts with
  | Except.error e => Except.error e
  | Except.ok r =>
    if !r.ok then
      Except.error
        { message := "Failed to fetch models: " ++ toString r.status,
          statusCode := some r.status,
          isRetryable := isRetryableError rc none (some r.status),
          originalError := none }
    else Except.ok r

/-- A converted OpenAI message as the budgeter sees it: its textual
content (`null` is `none`) and, when present, the serialized form of its
`tool_calls` payload. -/
structure ChatMsg where
  content : Option String
  toolCallsJson : Option String
deriving DecidableEq

/-- `GatewayProvider.estimateMessageTokens`: about four characters per
token, rounded up, over content plus serialized tool calls. -/
def estimateMessageTokens (message : ChatMsg) : ℕ :=
  let text := message.content.getD "" ++ message.toolCallsJson.getD ""
  (text.length + 3) / 4

/-- Total estimated tokens of a conversation. -/
def sumTokens (l : List ChatMsg) : ℕ := (l.map estimateMessageTokens).sum

/-- The backward loop of `truncateMessagesToFit` over the reversed tail:
keep most-recent messages while they fit, stop at the first that does
not. -/
def keepRecentAux (maxTokens : ℤ) : ℤ → List ChatMsg → List ChatMsg
  | _, [] => []
  | used, m :: older =>
    if used + (estimateMessageTokens m : ℤ) ≤ maxTokens then
      m :: keepRecentAux maxTokens (used + (estimateMessageTokens m : ℤ)) older
    else []

/-- `GatewayProvider.truncateMessagesToFit`: within budget the list is
returned as is; otherwise the first message is retained unconditionally
and recent messages are added newest-first while they fit. -/
def truncateMessagesToFit (messages : List ChatMsg) (maxTokens : ℤ) :
    List ChatMsg :=
  match messages with
  | [] => []
  | first :: rest =>
    if (sumTokens (first :: rest) : ℤ) ≤ maxTokens then first :: rest
    else
      first ::
        (keepRecentAux maxTokens (estimateMessageTokens first : ℤ)
          rest.reverse).reverse

/-- `GatewayProvider.calculateSafeMaxOutputTokens`.  The conservative
estimate `Math.ceil(total * 1.2)` is `(12 * total + 9) / 10` on naturals
(the JavaScript double computation rounds to the same ceiling at these
magnitudes); `Math.floor` of the integer difference is the identity. -/
def calculateSafeMaxOutputTokens (defaultMaxTokens defaultMaxOutputTokens : ℤ)
    (estimatedInputTokens toolsOverhead : ℕ) : ℤ :=
  let modelMaxContext := if defaultMaxTokens = 0 then 32768 else defaultMaxTokens
  let totalEstimatedTokens := estimatedInputTokens + toolsOverhead
  let conservativeInputEstimate : ℤ := ((12 * totalEstimatedTokens + 9) / 10 : ℕ)
  let bufferTokens : ℤ := 256
  let safeMaxOutputTokens :=
    min (if defaultMaxOutputTokens = 0 then 2048 else defaultMaxOutputTokens)
        (modelMaxContext - conservativeInputEstimate - bufferTokens)
  max 64 safeMaxOutputTokens

lemma string_append_empty (s : String) : s ++ "" = s := by
  cases s with
  | mk d =>
    show String.mk (d ++ []) = String.mk d
    rw [List.append_nil]

lemma optTruthy_false {o : Option String} (h : optTruthy o = false) :
    o.getD "" = "" := by
  simpa [optTruthy] using h

/-- C5: the spec's test *Repair closes truncated string* fails on the
code.  For the truncated string value the repairer balances brackets
before closing the odd quote, so the synthesized closing brace lands
inside the string; the repaired candidate fails to parse and
`tryRepairJson` returns null — not the claimed object, although that
object is exactly what the intended repair would parse to. -/
theorem tryRepairJson_truncated_string_is_null :
    repairedString "\x7b\"a\": \"hi" = "\x7b\"a\": \"hi\x7d\"" ∧
    parseJson "\x7b\"a\": \"hi\x7d\"" = none ∧
    tryRepairJson "\x7b\"a\": \"hi" = none ∧
    parseJson "\x7b\"a\": \"hi\"\x7d" = some (Json.obj [("a", Json.str "hi")]) :=
  ⟨rfl, rfl, rfl, rfl⟩

/-- First fragment of the C1 counterexample: explicit slot 0, identifier
"a", name "n", argument text "x". -/
def c1frag1 : ToolCallFragment :=
  { index := some (natIdx 0), id := some "a",
    function := some { name := some "n", arguments := some "x" } }

/-- Second fragment of the C1 counterexample: explicit slot 0, identifier
"b", no function payload. -/
def c1frag2 : ToolCallFragment :=
  { index := some (natIdx 0), id := some "b", function := none }

/-- Accumulator state after the first C1 fragment. -/
def c1st1 : ToolCallState := processToolCallDelta c1frag1 (createToolCallState "R")

/-- C1, counterexample: the entry at slot 0 stores the non-empty
identifier "a", yet processing a fragment that supplies identifier "b"
overwrites it — contradicting "overwritten only if … the stored
identifier was previously empty". -/
theorem processToolCallDelta_overwrites_nonempty_id :
    (mapGet c1st1.toolCallsByIndex (natIdx 0)).map StreamingToolCall.id =
      some "a" ∧
    (mapGet (processToolCallDelta c1frag2 c1st1).toolCallsByIndex
        (natIdx 0)).map StreamingToolCall.id = some "b" :=
  ⟨rfl, rfl⟩

/-- C1 (amended): when a pending entry exists for the fragment's explicit
slot index, the identifier and the name are overwritten whenever the
fragment supplies a non-empty one — regardless of what was stored — the
argument text is appended (never replaced), and the finalized set, request
id and counter are unchanged. -/
theorem processToolCallDelta_updates_existing (tc : ToolCallFragment)
    (st : ToolCallState) (n : JsNum) (e : StreamingToolCall)
    (hidx : tc.index = some n)
    (hget : mapGet st.toolCallsByIndex n = some e) :
    (processToolCallDelta tc st).toolCallsByIndex =
      mapSet st.toolCallsByIndex n
        ⟨(if optTruthy tc.id then tc.id.getD "" else e.id),
         (if optTruthy tc.fnName then tc.fnName.getD "" else e.name),
         e.arguments ++ tc.fnArgs.getD ""⟩ ∧
    (processToolCallDelta tc st).finalizedIndices = st.finalizedIndices ∧
    (processToolCallDelta tc st).requestId = st.requestId ∧
    (processToolCallDelta tc st).toolCallCounter = st.toolCallCounter := by
  refine ⟨?_, ?_, ?_, ?_⟩
  all_goals simp only [processToolCallDelta, hidx, hget]
  all_goals
    cases htid : optTruthy tc.id <;> cases htn : optTruthy tc.fnName <;>
      cases hta : optTruthy tc.fnArgs <;>
        simp [htid, htn, hta, optTruthy_false, string_append_empty]

/-- C1, witness: the amended theorem at the counterexample state — the
stored identifier "a" is replaced by the supplied "b", the name is kept,
the argument text is preserved. -/
theorem processToolCallDelta_updates_existing_witness :
    (processToolCallDelta c1frag2 c1st1).toolCallsByIndex =
      mapSet c1st1.toolCallsByIndex (natIdx 0) ⟨"b", "n", "x"⟩ ∧
    (processToolCallDelta c1frag2 c1st1).finalizedIndices =
      c1st1.finalizedIndices ∧
    (processToolCallDelta c1frag2 c1st1).requestId = c1st1.requestId ∧
    (processToolCallDelta c1frag2 c1st1).toolCallCounter =
      c1st1.toolCallCounter :=
  processToolCallDelta_updates_existing c1frag2 c1st1 (natIdx 0) ⟨"a", "n", "x"⟩
    rfl rfl

/-- Decimal value of a number with non-negative exponent. -/
def jsNumVal (q : JsNum) : ℤ := q.m * 10 ^ q.e.toNat

lemma stripZeros_val : ∀ (fuel : ℕ) (m e : ℤ), 0 ≤ e →
    0 ≤ (stripZeros fuel m e).e ∧
      jsNumVal (stripZeros fuel m e) = m * 10 ^ e.toNat
  | 0, _, _, he => ⟨he, rfl⟩
  | fuel + 1, m, e, he => by
    simp only [stripZeros]
    by_cases h : m % 10 = 0 ∧ m ≠ 0
    · rw [if_pos h]
      obtain ⟨h1, h2⟩ := stripZeros_val fuel (m / 10) (e + 1) (by omega)
      refine ⟨h1, ?_⟩
      rw [h2, show (e + 1).toNat = e.toNat + 1 by omega, pow_succ,
        show m / 10 * (10 ^ e.toNat * 10) = m / 10 * 10 * 10 ^ e.toNat by ring,
        Int.ediv_mul_cancel (Int.dvd_of_emod_eq_zero h.1)]
    · rw [if_neg h]
      exact ⟨he, rfl⟩

lemma natIdx_val (n : ℕ) : jsNumVal (natIdx n) = n := by
  unfold natIdx normNum
  by_cases h : (n : ℤ) = 0
  · rw [if_pos h]
    simp only [jsNumVal]
    omega
  · rw [if_neg h]
    have := (stripZeros_val (Int.natAbs (n : ℤ)) n 0 le_rfl).2
    simpa using this

lemma natIdx_injective {a b : ℕ} (h : natIdx a = natIdx b) : a = b := by
  have : (a : ℤ) = b := by rw [← natIdx_val a, ← natIdx_val b, h]
  exact_mod_cast this

lemma mapGet_eq_none {l : List (JsNum × StreamingToolCall)} {k : JsNum}
    (h : k ∉ l.map Prod.fst) : mapGet l k = none := by
  induction l with
  | nil => rfl
  | cons p rest ih =>
    obtain ⟨k', v⟩ := p
    simp only [List.map_cons, List.mem_cons] at h
    push_neg at h
    simp only [mapGet]
    rw [if_neg (by simpa using (Ne.symm h.1)), ih h.2]

lemma mapSet_eq_append {l : List (JsNum × StreamingToolCall)} {k : JsNum}
    (v : StreamingToolCall) (h : k ∉ l.map Prod.fst) :
    mapSet l k v = l ++ [(k, v)] := by
  induction l with
  | nil => rfl
  | cons p rest ih =>
    obtain ⟨k', v'⟩ := p
    simp only [List.map_cons, List.mem_cons] at h
    push_neg at h
    simp only [mapSet]
    rw [if_neg (by simpa using (Ne.symm h.1)), ih h.2]
    simp

lemma processToolCallDelta_none_index (tc : ToolCallFragment)
    (st : ToolCallState) (htc : tc.index = none)
    (hkeys : st.toolCallsByIndex.map Prod.fst =
      (List.range st.toolCallCounter).map natIdx) :
    (processToolCallDelta tc st).toolCallsByIndex.map Prod.fst =
      (List.range (st.toolCallCounter + 1)).map natIdx ∧
    (processToolCallDelta tc st).toolCallCounter = st.toolCallCounter + 1 := by
  have hnot : natIdx st.toolCallCounter ∉ st.toolCallsByIndex.map Prod.fst := by
    rw [hkeys]
    simp only [List.mem_map, List.mem_range]
    rintro ⟨j, hj, hEq⟩
    exact absurd (natIdx_injective hEq) (by omega)
  have hget := mapGet_eq_none hnot
  simp only [processToolCallDelta, htc, hget]
  rw [mapSet_eq_append _ hnot]
  constructor
  · rw [List.map_append, hkeys, List.range_succ, List.map_append]
    rfl
  · trivial

lemma foldl_processToolCallDelta_no_index :
    ∀ (frags : List ToolCallFragment) (st : ToolCallState),
      (∀ f ∈ frags, f.index = none) →
      st.toolCallsByIndex.map Prod.fst =
        (List.range st.toolCallCounter).map natIdx →
      (frags.foldl (fun s tc => processToolCallDelta tc s)
          st).toolCallsByIndex.map Prod.fst =
        (List.range ((frags.foldl (fun s tc => processToolCallDelta tc s)
          st).toolCallCounter)).map natIdx ∧
      (frags.foldl (fun s tc => processToolCallDelta tc s) st).toolCallCounter =
        st.toolCallCounter + frags.length
  | [], st, _, hkeys => ⟨by simpa using hkeys, by simp⟩
  | f :: rest, st, hall, hkeys => by
    have hstep := processToolCallDelta_none_index f st (hall f (by simp)) hkeys
    have hrec := foldl_processToolCallDelta_no_index rest
      (processToolCallDelta f st) (fun g hg => hall g (by simp [hg]))
      (by rw [hstep.1, hstep.2])
    simp only [List.foldl_cons]
    refine ⟨hrec.1, ?_⟩
    rw [hrec.2, hstep.2]
    simp only [List.length_cons]
    omega

/-- C8 (amended): an omitted-index fragment is assigned the accumulator's
bare counter value.  In a response where no fragment carries an explicit
index, the assigned slot indices are exactly 0, 1, 2, … in arrival order
(the insertion-ordered map keys) and never collide; because explicitly
indexed fragments do not advance the counter, a mixed response can assign
an index already in use — see the counterexample. -/
theorem omitted_index_fragments_sequential (requestId : String)
    (frags : List ToolCallFragment) (h : ∀ f ∈ frags, f.index = none) :
    (frags.foldl (fun s tc => processToolCallDelta tc s)
        (createToolCallState requestId)).toolCallsByIndex.map Prod.fst =
      (List.range frags.length).map natIdx ∧
    (frags.foldl (fun s tc => processToolCallDelta tc s)
        (createToolCallState requestId)).toolCallCounter = frags.length := by
  have hmain := foldl_processToolCallDelta_no_index frags
    (createToolCallState requestId) h (by rfl)
  have hc : (createToolCallState requestId).toolCallCounter = 0 := rfl
  refine ⟨?_, by rw [hmain.2, hc, Nat.zero_add]⟩
  rw [hmain.1, hmain.2, hc, Nat.zero_add]

/-- C8, counterexample: after an explicitly indexed fragment claimed slot
0, a fragment omitting its index is assigned the counter value 0 — an
index already in use within the same response — so the two fragments
merge into a single entry instead of the omitted-index fragment receiving
an unused index. -/
theorem omitted_index_collides :
    (processToolCallDelta
        ({ index := none, id := none,
           function := some { name := none, arguments := some "B" } })
        (processToolCallDelta
          ({ index := some (natIdx 0), id := none,
             function := some { name := none, arguments := some "A" } })
          (createToolCallState "R"))).toolCallsByIndex =
      [(natIdx 0, { id := "", name := "", arguments := "AB" })] := rfl

/-- Three omitted-index fragments for the C8 witness. -/
def c8frags : List ToolCallFragment :=
  [{ index := none, id := some "i0", function := none },
   { index := none, id := none,
     function := some { name := some "g", arguments := none } },
   { index := none, id := none, function := none }]

/-- C8, witness: three fragments without indices from a fresh response
occupy slots 0, 1, 2 in arrival order. -/
theorem omitted_index_fragments_sequential_witness :
    (c8frags.foldl (fun s tc => processToolCallDelta tc s)
        (createToolCallState "R")).toolCallsByIndex.map Prod.fst =
      (List.range c8frags.length).map natIdx ∧
    (c8frags.foldl (fun s tc => processToolCallDelta tc s)
        (createToolCallState "R")).toolCallCounter = c8frags.length :=
  omitted_index_fragments_sequential "R" c8frags (by decide)

/-- C9: an SSE line whose `data: ` payload fails JSON parsing yields no
record and leaves the accumulator untouched, for every state; moreover
deleting such a line from any line sequence changes neither the emitted
records nor the final state — an undecodable line never raises an error
and never terminates the record sequence. -/
theorem processSSELine_parse_failure (line : String)
    (hparse : parseJson (String.mk ((jsTrim line).data.drop 6)) = none) :
    (∀ st : ToolCallState, processSSELine line st = (none, st)) ∧
    (∀ (pre post : List String) (st : ToolCallState),
      processLines (pre ++ line :: post) st = processLines (pre ++ post) st) := by
  have hline : ∀ st : ToolCallState, processSSELine line st = (none, st) := by
    intro st
    by_cases h1 : jsTrim line = "" ∨ jsTrim line = "data: [DONE]"
    · simp [processSSELine, h1]
    · by_cases h2 : "data: ".data.isPrefixOf (jsTrim line).data
      · simp [processSSELine, h1, h2, parseSSEData, hparse]
      · simp [processSSELine, h1, h2]
  refine ⟨hline, ?_⟩
  intro pre post
  induction pre with
  | nil =>
    intro st
    simp only [List.nil_append, processLines, hline st]
  | cons p pre ih =>
    intro st
    simp only [List.cons_append, processLines]
    rw [show pre.append (line :: post) = pre ++ line :: post from rfl,
      show pre.append post = pre ++ post from rfl, ih]

/-- C9, witness: a concrete undecodable line is skipped from the fresh
accumulator state. -/
theorem processSSELine_parse_failure_witness :
    processSSELine "data: \x7bnope" (createToolCallState "R") =
      (none, createToolCallState "R") :=
  (processSSELine_parse_failure "data: \x7bnope" rfl).1 (createToolCallState "R")

lemma fetchWithRetryGo_error_not_retryable (rc : RetryConfig) (op : String)
    (attempts : ℕ → AttemptOutcome) :
    ∀ (fuel attempt : ℕ) (lastE : Option String) (e : GatewayErr),
      fetchWithRetryGo rc op attempts attempt fuel lastE = Except.error e →
      e.isRetryable = false
  | 0, attempt, lastE, e, h => by
    simp only [fetchWithRetryGo] at h
    injection h with h2
    rw [← h2]
  | fuel + 1, attempt, lastE, e, h => by
    cases hatt : attempts attempt with
    | resp r =>
      simp only [fetchWithRetryGo, hatt] at h
      split at h
      · split at h
        · exact fetchWithRetryGo_error_not_retryable rc op attempts fuel
            (attempt + 1) lastE e h
        · cases h
      · cases h
    | thrown m =>
      simp only [fetchWithRetryGo, hatt] at h
      split at h
      · exact fetchWithRetryGo_error_not_retryable rc op attempts fuel
          (attempt + 1) (some m) e h
      · injection h with h2
        rw [← h2]

lemma fetchWithRetryGo_all_retryable_resp (rc : RetryConfig) (op : String)
    (attempts : ℕ → AttemptOutcome) (s : ℕ)
    (hatt : ∀ i, attempts i = AttemptOutcome.resp ⟨false, s⟩)
    (hs : isRetryableError rc none (some s) = true) :
    ∀ (fuel attempt : ℕ) (lastE : Option String),
      attempt + fuel = rc.maxRetries + 1 → attempt ≤ rc.maxRetries →
      fetchWithRetryGo rc op attempts attempt fuel lastE = Except.ok ⟨false, s⟩
  | 0, attempt, lastE, hsum, hle => by omega
  | fuel + 1, attempt, lastE, hsum, hle => by
    simp only [fetchWithRetryGo, hatt attempt, hs]
    by_cases hlt : attempt < rc.maxRetries
    · rw [if_pos (by simp [hlt])]
      rw [if_pos hlt]
      exact fetchWithRetryGo_all_retryable_resp rc op attempts s hatt hs fuel
        (attempt + 1) lastE (by omega) (by omega)
    · rw [if_pos (by simp)]
      rw [if_neg hlt]

/-- C4 (amended): every error the retry loop itself throws carries
`isRetryable = false` — in particular after exhausting all attempts on
thrown transient errors — but when every attempt returns a retryable HTTP
status the loop returns the final failing response instead of throwing,
and the error the calling operation (here `fetchModels`) then raises
carries that status's own retryability, which is `true`. -/
theorem transport_exhaustion_retryability :
    (∀ (rc : RetryConfig) (op : String) (attempts : ℕ → AttemptOutcome)
        (attempt fuel : ℕ) (lastE : Option String) (e : GatewayErr),
        fetchWithRetryGo rc op attempts attempt fuel lastE = Except.error e →
        e.isRetryable = false) ∧
    (∀ (rc : RetryConfig) (s : ℕ) (attempts : ℕ → AttemptOutcome),
        (∀ i, attempts i = AttemptOutcome.resp ⟨false, s⟩) →
        s ≠ 0 → s ∈ rc.retryableStatusCodes →
        fetchWithRetry rc "Fetch models" attempts = Except.ok ⟨false, s⟩ ∧
        ∃ e, fetchModels rc attempts = Except.error e ∧
          e.isRetryable = true ∧ e.statusCode = some s) := by
  constructor
  · intro rc op attempts attempt fuel lastE e h
    exact fetchWithRetryGo_error_not_retryable rc op attempts fuel attempt lastE e h
  · intro rc s attempts hatt hs0 hsmem
    have hcont : rc.retryableStatusCodes.contains s = true := by simpa using hsmem
    have hs : isRetryableError rc none (some s) = true := by
      simp [isRetryableError, hs0, hsmem]
    have hok : fetchWithRetry rc "Fetch models" attempts = Except.ok ⟨false, s⟩ :=
      fetchWithRetryGo_all_retryable_resp rc "Fetch models" attempts s hatt hs
        (rc.maxRetries + 1) 0 none (by omega) (by omega)
    refine ⟨hok, ?_⟩
    refine ⟨{ message := "Failed to fetch models: " ++ toString s,
              statusCode := some s,
              isRetryable := isRetryableError rc none (some s),
              originalError := none }, ?_, by rw [hs], rfl⟩
    simp only [fetchModels, fetchWithRetry] at *
    rw [hok]
    rfl

/-- C4, counterexample: with the default configuration and every attempt
answering HTTP 429, all `maxRetries + 1 = 4` attempts are exhausted, yet
the error raised to the caller of `fetchModels` carries
`isRetryable = true` — not the claimed terminal `false`. -/
theorem fetchModels_429_retryable_error :
    fetchModels DEFAULT_RETRY_CONFIG
        (fun _ => AttemptOutcome.resp ⟨false, 429⟩) =
      Except.error
        { message := "Failed to fetch models: 429", statusCode := some 429,
          isRetryable := true, originalError := none } :=
  rfl

/-- C4, witness: four thrown timeouts exhaust the attempts and the
transport's own error is terminal. -/
theorem transport_exhaustion_retryability_witness :
    ({ message := "Chat completion failed after 4 attempts: timeout",
       statusCode := none, isRetryable := false,
       originalError := some "timeout" } : GatewayErr).isRetryable = false :=
  transport_exhaustion_retryability.1 DEFAULT_RETRY_CONFIG "Chat completion"
    (fun _ => AttemptOutcome.thrown "timeout") 3 1 (some "timeout") _ rfl

/-- C3: for every attempt `n` and random draw `r ∈ [0, 1)` the computed
delay equals `min(baseDelay * 2^n * (1 + j), maxDelay)` for the jitter
`j = 0.3 * r`, which lies in `[0, 0.3)`; conversely every jitter in
`[0, 0.3)` is realized by some draw (the map is the order-preserving
affine image of the uniform draw, as the spec's "uniformly drawn"
describes); the default base delay is 1000 ms and the default maximum
delay 10000 ms. -/
theorem calculateBackoffDelay_spec :
    (∀ (rc : RetryConfig) (attempt : ℕ) (rand : ℚ), 0 ≤ rand → rand < 1 →
      ∃ j : ℚ, 0 ≤ j ∧ j < 3 / 10 ∧
        calculateBackoffDelay rc attempt rand =
          min (rc.baseDelayMs * 2 ^ attempt * (1 + j)) rc.maxDelayMs) ∧
    (∀ j : ℚ, 0 ≤ j → j < 3 / 10 → ∃ rand : ℚ, 0 ≤ rand ∧ rand < 1 ∧
      ∀ (rc : RetryConfig) (attempt : ℕ),
        calculateBackoffDelay rc attempt rand =
          min (rc.baseDelayMs * 2 ^ attempt * (1 + j)) rc.maxDelayMs) ∧
    DEFAULT_RETRY_CONFIG.baseDelayMs = 1000 ∧
    DEFAULT_RETRY_CONFIG.maxDelayMs = 10000 := by
  refine ⟨?_, ?_, rfl, rfl⟩
  · intro rc attempt rand h0 h1
    refine ⟨rand * (3 / 10), mul_nonneg h0 (by norm_num), ?_, ?_⟩
    · calc rand * (3 / 10) < 1 * (3 / 10) := by
            exact mul_lt_mul_of_pos_right h1 (by norm_num)
        _ = 3 / 10 := one_mul _
    · unfold calculateBackoffDelay
      ring_nf
  · intro j h0 h1
    refine ⟨j * (10 / 3), mul_nonneg h0 (by norm_num), ?_, ?_⟩
    · have := mul_lt_mul_of_pos_right h1 (show (0:ℚ) < 10 / 3 by norm_num)
      calc j * (10 / 3) < 3 / 10 * (10 / 3) := this
        _ = 1 := by norm_num
    · intro rc attempt
      unfold calculateBackoffDelay
      ring_nf

/-- C3, witness: attempt 2 with draw 1/2 under the default
configuration. -/
theorem calculateBackoffDelay_spec_witness :
    ∃ j : ℚ, 0 ≤ j ∧ j < 3 / 10 ∧
      calculateBackoffDelay DEFAULT_RETRY_CONFIG 2 (1 / 2) =
        min (DEFAULT_RETRY_CONFIG.baseDelayMs * 2 ^ 2 * (1 + j))
          DEFAULT_RETRY_CONFIG.maxDelayMs :=
  calculateBackoffDelay_spec.1 DEFAULT_RETRY_CONFIG 2 (1 / 2) (by norm_num)
    (by norm_num)

lemma natCeilTwelveTenths (t : ℕ) :
    (((12 * t + 9) / 10 : ℕ) : ℤ) = ⌈(12 * (t : ℚ)) / 10⌉ := by
  have hmod := Nat.div_add_mod (12 * t + 9) 10
  set q := (12 * t + 9) / 10 with hq
  set r := (12 * t + 9) % 10 with hr
  have hrlt : r < 10 := Nat.mod_lt _ (by norm_num)
  have h1 : 12 * t ≤ 10 * q := by omega
  have h2 : 10 * q < 12 * t + 10 := by omega
  symm
  rw [Int.ceil_eq_iff]
  have h1q : (12 * t : ℚ) ≤ 10 * q := by exact_mod_cast h1
  have h2q : (10 * q : ℚ) < 12 * t + 10 := by exact_mod_cast h2
  constructor
  · rw [lt_div_iff₀ (by norm_num : (0:ℚ) < 10)]
    push_cast
    linarith
  · rw [div_le_iff₀ (by norm_num : (0:ℚ) < 10)]
    push_cast
    linarith

/-- C7: writing `c = ⌈1.2 * (input + toolsOverhead)⌉` for the conservative
input estimate, the computed output ceiling equals
`min(maxOutputTokens, contextWindow - c - 256)` whenever that minimum is
at least 64, equals exactly 64 whenever `c + 256` meets or exceeds the
context window, and is never below 64. -/
theorem calculateSafeMaxOutputTokens_spec (ctx maxOut : ℤ)
    (input overhead : ℕ) (hctx : 0 < ctx) (hout : 0 < maxOut) :
    (64 ≤ min maxOut (ctx - ⌈(12 * (((input + overhead : ℕ)) : ℚ)) / 10⌉ - 256) →
      calculateSafeMaxOutputTokens ctx maxOut input overhead =
        min maxOut (ctx - ⌈(12 * (((input + overhead : ℕ)) : ℚ)) / 10⌉ - 256)) ∧
    (ctx ≤ ⌈(12 * (((input + overhead : ℕ)) : ℚ)) / 10⌉ + 256 →
      calculateSafeMaxOutputTokens ctx maxOut input overhead = 64) ∧
    64 ≤ calculateSafeMaxOutputTokens ctx maxOut input overhead := by
  have hc := natCeilTwelveTenths (input + overhead)
  unfold calculateSafeMaxOutputTokens
  rw [if_neg (by omega), if_neg (by omega), ← hc]
  set c : ℤ := (((12 * (input + overhead) + 9) / 10 : ℕ) : ℤ) with hcdef
  refine ⟨fun h => max_eq_right h, fun h => ?_, le_max_left _ _⟩
  have hle : min maxOut (ctx - c - 256) ≤ ctx - c - 256 := min_le_right _ _
  have : min maxOut (ctx - c - 256) ≤ 64 := by omega
  exact max_eq_left this

/-- C7, witness: an input estimate of 40000 tokens against a 32768-token
context window floors the ceiling at exactly 64. -/
theorem calculateSafeMaxOutputTokens_spec_witness :
    calculateSafeMaxOutputTokens 32768 64000 40000 0 = 64 ∧
    64 ≤ calculateSafeMaxOutputTokens 32768 64000 40000 0 :=
  ⟨by decide,
   (calculateSafeMaxOutputTokens_spec 32768 64000 40000 0 (by norm_num)
     (by norm_num)).2.2⟩

lemma keepRecentAux_spec (maxTokens : ℤ) :
    ∀ (l : List ChatMsg) (used : ℤ),
      ∃ i, i ≤ l.length ∧
        keepRecentAux maxTokens used l = l.take i ∧
        (i = 0 ∨ used + (sumTokens (l.take i) : ℤ) ≤ maxTokens) ∧
        (i < l.length → maxTokens < used + (sumTokens (l.take (i + 1)) : ℤ))
  | [], _ => ⟨0, le_rfl, rfl, Or.inl rfl, by simp⟩
  | m :: older, used => by
    by_cases h : used + (estimateMessageTokens m : ℤ) ≤ maxTokens
    · obtain ⟨i, hi, heq, hfit, hstop⟩ :=
        keepRecentAux_spec maxTokens older (used + (estimateMessageTokens m : ℤ))
      refine ⟨i + 1, by simp only [List.length_cons]; omega, ?_, ?_, ?_⟩
      · simp only [keepRecentAux, if_pos h, heq, List.take_succ_cons]
      · right
        rw [List.take_succ_cons]
        have hsum : sumTokens (m :: older.take i) =
            estimateMessageTokens m + sumTokens (older.take i) := by
          simp [sumTokens]
        rw [hsum]
        rcases hfit with h0 | hfit
        · subst h0
          push_cast
          simpa [sumTokens] using h
        · push_cast
          linarith
      · intro hlt
        have hlt' : i < older.length := by
          simp only [List.length_cons] at hlt
          omega
        have hst := hstop hlt'
        rw [List.take_succ_cons]
        have hsum : sumTokens (m :: older.take (i + 1)) =
            estimateMessageTokens m + sumTokens (older.take (i + 1)) := by
          simp [sumTokens]
        rw [hsum]
        push_cast
        push_cast at hst
        linarith
    · refine ⟨0, Nat.zero_le _, ?_, Or.inl rfl, ?_⟩
      · simp [keepRecentAux, h]
      · intro _
        push_neg at h
        simpa [sumTokens] using h

lemma sumTokens_reverse (l : List ChatMsg) : sumTokens l.reverse = sumTokens l := by
  simp [sumTokens, List.map_reverse, List.sum_reverse]

/-- One of the ten synthetic messages of the spec's truncation example:
message 0 and messages 7–9 estimate one token, the middle six estimate ten
tokens each. -/
def c2m (k : ℕ) : ChatMsg :=
  if k = 0 ∨ 7 ≤ k then
    { content := some (String.mk ('m' :: Nat.toDigits 10 k ++ ['x', 'x'])),
      toolCallsJson := none }
  else
    { content := some (String.mk (List.replicate 40 (Char.ofNat (97 + k)))),
      toolCallsJson := none }

/-- Messages 1–9 of the truncation example. -/
def c2tail : List ChatMsg :=
  [c2m 1, c2m 2, c2m 3, c2m 4, c2m 5, c2m 6, c2m 7, c2m 8, c2m 9]

set_option maxRecDepth 8192 in
/-- C2: when the conversation overflows the budget, truncation returns the
first message followed by a contiguous suffix of the remaining messages in
their original order, obtained by scanning from the newest message
backwards while the cumulative token estimate stays within the budget and
stopping at the first message that would exceed it; in particular the
spec's ten-message example keeps exactly `[msg0, msg7, msg8, msg9]`. -/
theorem truncateMessagesToFit_spec :
    (∀ (first : ChatMsg) (rest : List ChatMsg) (maxTokens : ℤ),
      maxTokens < (sumTokens (first :: rest) : ℤ) →
      ∃ j, j ≤ rest.length ∧
        truncateMessagesToFit (first :: rest) maxTokens = first :: rest.drop j ∧
        (j = rest.length ∨
          (estimateMessageTokens first : ℤ) + (sumTokens (rest.drop j) : ℤ) ≤
            maxTokens) ∧
        (1 ≤ j →
          maxTokens < (estimateMessageTokens first : ℤ) +
            (sumTokens (rest.drop (j - 1)) : ℤ))) ∧
    truncateMessagesToFit (c2m 0 :: c2tail) 4 = [c2m 0, c2m 7, c2m 8, c2m 9] := by
  constructor
  · intro first rest maxTokens hover
    obtain ⟨i, hi, heq, hfit, hstop⟩ :=
      keepRecentAux_spec maxTokens rest.reverse (estimateMessageTokens first : ℤ)
    rw [List.length_reverse] at hi
    refine ⟨rest.length - i, Nat.sub_le _ _, ?_, ?_, ?_⟩
    · show (if (sumTokens (first :: rest) : ℤ) ≤ maxTokens then first :: rest
            else first :: (keepRecentAux maxTokens
              (estimateMessageTokens first : ℤ) rest.reverse).reverse) =
          first :: rest.drop (rest.length - i)
      rw [if_neg (not_le.mpr hover), heq, List.take_reverse, List.reverse_reverse]
    · rcases hfit with h0 | hfit
      · subst h0
        exact Or.inl (by omega)
      · right
        rw [List.take_reverse, sumTokens_reverse] at hfit
        exact hfit
    · intro hj
      have hlt : i < rest.reverse.length := by
        rw [List.length_reverse]
        omega
      have hst := hstop hlt
      rw [List.take_reverse, sumTokens_reverse,
        show rest.length - (i + 1) = rest.length - i - 1 from by omega] at hst
      exact hst
  · decide

set_option maxRecDepth 8192 in
/-- C2, witness: the characterization applied to the ten-message example
(budget 4, total 64). -/
theorem truncateMessagesToFit_spec_witness :
    ∃ j, j ≤ c2tail.length ∧
      truncateMessagesToFit (c2m 0 :: c2tail) 4 = c2m 0 :: c2tail.drop j ∧
      (j = c2tail.length ∨
        (estimateMessageTokens (c2m 0) : ℤ) + (sumTokens (c2tail.drop j) : ℤ) ≤ 4) ∧
      (1 ≤ j → (4 : ℤ) < (estimateMessageTokens (c2m 0) : ℤ) +
        (sumTokens (c2tail.drop (j - 1)) : ℤ)) :=
  truncateMessagesToFit_spec.1 (c2m 0) c2tail 4 (by decide)

lemma runStream_some_zero (st : ToolCallState) (buf : String)
    (chunks : List String) : runStream (some 0) st buf chunks = ([], st) := by
  cases chunks <;> rfl

lemma runStream_nil (budget : Option ℕ) (st : ToolCallState) (buf : String) :
    runStream budget st buf [] = ([], st) := by
  cases budget with
  | none => rfl
  | some k => cases k <;> rfl

lemma runStream_cons_succ (k : ℕ) (st : ToolCallState) (buf c : String)
    (rest : List String) :
    runStream (some (k + 1)) st buf (c :: rest) =
      ((streamStep st buf c).1 ++
        (runStream (some k) (streamStep st buf c).2.1 (streamStep st buf c).2.2
          rest).1,
       (runStream (some k) (streamStep st buf c).2.1 (streamStep st buf c).2.2
          rest).2) := rfl

lemma runStream_cons_none (st : ToolCallState) (buf c : String)
    (rest : List String) :
    runStream none st buf (c :: rest) =
      ((streamStep st buf c).1 ++
        (runStream none (streamStep st buf c).2.1 (streamStep st buf c).2.2
          rest).1,
       (runStream none (streamStep st buf c).2.1 (streamStep st buf c).2.2
          rest).2) := rfl

lemma runStream_cancel :
    ∀ (chunks : List String) (k : ℕ) (st : ToolCallState) (buf : String),
      runStream (some k) st buf chunks = runStream none st buf (chunks.take k)
  | [], k, st, buf => by
    rw [List.take_nil, runStream_nil, runStream_nil]
  | _ :: _, 0, st, buf => by
    rw [List.take_zero, runStream_some_zero, runStream_nil]
  | c :: rest, k + 1, st, buf => by
    rw [List.take_succ_cons, runStream_cons_succ, runStream_cons_none,
      runStream_cancel rest k]

/-- C6 (amended): once the cancellation check at the top of the byte-read
loop observes the signal, no further chunks are read and no further lines
are processed — the record sequence equals that of a stream that ended at
the cancellation point.  In particular pending tool calls are not
discarded: they pass through the same forced drain as a normal end of
stream, finalized and yielded in one final record when any of them has a
non-empty name or arguments. -/
theorem streamChatCompletion_cancel_truncates (requestId : String) (k : ℕ)
    (chunks : List String) :
    streamChatCompletionRecords requestId (some k) chunks =
      streamChatCompletionRecords requestId none (chunks.take k) := by
  unfold streamChatCompletionRecords
  rw [runStream_cancel]

/-- The single SSE chunk of the C6 counterexample: one fragment for slot
0 carrying a name and complete arguments, no finish reason. -/
def c6chunk : String :=
  "data: \x7b\"choices\":[\x7b\"delta\":\x7b\"tool_calls\":[\x7b\"index\":0,\"function\":\x7b\"name\":\"f\",\"arguments\":\"\x7b\x7d\"\x7d\x7d]\x7d\x7d]\x7d\n"

/-- C6, counterexample: the cancellation check observes the signal at the
top of the second iteration, after the fragment for slot 0 was
accumulated but not finalized; `streamChatCompletion` nevertheless emits
one further record, in which that pending tool call is finalized and
yielded — it is not discarded. -/
theorem streamChatCompletion_cancel_drains_pending :
    streamChatCompletionRecords "R" (some 1) [c6chunk] =
      [{ content := "", tool_calls := [], finished_tool_calls := [] },
       { content := "", tool_calls := [],
         finished_tool_calls :=
           [{ id := "call_R_0", name := "f", arguments := "\x7b\x7d" }] }] :=
  rfl

/-- C10: `tryRepairJson` is total and never throws — expressed over the
embedding by the exhaustive case split: blank (empty or whitespace-only)
input yields the structured empty object; otherwise the result is the
successfully parsed raw string, else the successfully parsed repaired
string, else null; both parse attempts are guarded, so no input escapes
these cases. -/
theorem tryRepairJson_total (s : String) :
    (jsTrim s = "" → tryRepairJson s = some (Json.obj [])) ∧
    (jsTrim s ≠ "" →
      (∃ j, parseJson s = some j ∧ tryRepairJson s = some j) ∨
      (parseJson s = none ∧
        ((∃ j, parseJson (repairedString s) = some j ∧
            tryRepairJson s = some j) ∨
         (parseJson (repairedString s) = none ∧ tryRepairJson s = none)))) := by
  constructor
  · intro h
    simp [tryRepairJson, h]
  · intro h
    cases hp : parseJson s with
    | some j => exact Or.inl ⟨j, rfl, by simp [tryRepairJson, h, hp]⟩
    | none =>
      refine Or.inr ⟨rfl, ?_⟩
      cases hr : parseJson (repairedString s) with
      | some j => exact Or.inl ⟨j, rfl, by simp [tryRepairJson, h, hp, hr]⟩
      | none => exact Or.inr ⟨rfl, by simp [tryRepairJson, h, hp, hr]⟩

/-- C10, witness: blank input yields the structured empty object. -/
theorem tryRepairJson_total_witness :
    tryRepairJson "   " = some (Json.obj []) :=
  (tryRepairJson_total "   ").1 rfl
